import Mathlib

/-!
Verification development for the `bptree` repository (`src/BPlusTree.py`).

The Python code is shallowly embedded as executable Lean functions.  Nodes
live in an arena (`List BNode`); the node attributes `parent`, `left`,
`right`, `next` become `Option Nat` arena indices, mirroring the design
note of the specification.  Python exceptions are modelled by the
`PyErr` type; an operation that mutates the tree returns `MRes`, which
carries the (possibly partially mutated) state both on success and on a
raised exception, exactly as a Python caller observes it.

Python `ValueError` messages are distinguished by semantic tags:
`dupKey` for "key already exists", `keyNotFound` for "key doesn't
exist", `orderNotInt` / `notCallable` for the constructor checks.
`idxError` is `IndexError`, `attrError` is `AttributeError` (attribute
access on `None`), and `recursionError` stands for fuel exhaustion of
the (in Python unbounded) recursions, i.e. Python's `RecursionError`.
-/

/-- Python exception kinds raised by the source code. -/
inductive PyErr where
  | dupKey
  | keyNotFound
  | idxError
  | attrError
  | recursionError
  | orderNotInt
  | notCallable
deriving Repr, DecidableEq

/-- Resolve a Python sequence index (negative indices count from the end),
returning the effective non-negative position, or `none` for out of range. -/
def pyIdx (len : Nat) (i : Int) : Option Nat :=
  if 0 ≤ i then
    if i < (len : Int) then some i.toNat else none
  else
    if -(len : Int) ≤ i then some (len - (-i).toNat) else none

/-- Python `a[i]` on a list: negative indices allowed, `IndexError` when out
of range. -/
def pyGetI {α : Type} (a : List α) (i : Int) : Except PyErr α :=
  match pyIdx a.length i with
  | some j =>
    match a.get? j with
    | some x => .ok x
    | none => .error .idxError
  | none => .error .idxError

/-- Python `a[i] = x` on a list: returns the updated list or `IndexError`. -/
def pySetI {α : Type} (a : List α) (i : Int) (x : α) : Except PyErr (List α) :=
  match pyIdx a.length i with
  | some j => .ok (a.set j x)
  | none => .error .idxError

/-- Python `a.pop(i)`: returns the removed element and the remaining list,
`IndexError` when out of range. -/
def pyPopI {α : Type} (a : List α) (i : Int) : Except PyErr (α × List α) :=
  match pyIdx a.length i with
  | some j =>
    match a.get? j with
    | some x => .ok (x, a.eraseIdx j)
    | none => .error .idxError
  | none => .error .idxError

/-- Python `a.insert(i, x)`: the index is clamped, never an error. -/
def pyInsertAt {α : Type} (a : List α) (i : Int) (x : α) : List α :=
  let j : Nat :=
    if i < 0 then
      (if -(a.length : Int) ≤ i then ((a.length : Int) + i).toNat else 0)
    else min i.toNat a.length
  a.take j ++ x :: a.drop j

/-- The loop of CPython's `bisect_right`: binary search, faithful also on
unsorted input.  Fuel bounds the loop; `hi - lo` shrinks each step, so
`len + 1` fuel is always enough. -/
def bisectRightLoop (a : List Int) (x : Int) : Nat → Nat → Nat → Nat
  | lo, _, 0 => lo
  | lo, hi, fuel + 1 =>
    if lo < hi then
      let mid := (lo + hi) / 2
      if x < a.getD mid 0 then bisectRightLoop a x lo mid fuel
      else bisectRightLoop a x (mid + 1) hi fuel
    else lo

/-- Python `bisect.bisect_right(a, x)`. -/
def bisectRight (a : List Int) (x : Int) : Nat :=
  bisectRightLoop a x 0 a.length (a.length + 1)

/-- The loop of CPython's `bisect_left`. -/
def bisectLeftLoop (a : List Int) (x : Int) : Nat → Nat → Nat → Nat
  | lo, _, 0 => lo
  | lo, hi, fuel + 1 =>
    if lo < hi then
      let mid := (lo + hi) / 2
      if a.getD mid 0 < x then bisectLeftLoop a x (mid + 1) hi fuel
      else bisectLeftLoop a x lo mid fuel
    else lo

/-- Python `bisect.bisect_left(a, x)`. -/
def bisectLeft (a : List Int) (x : Int) : Nat :=
  bisectLeftLoop a x 0 a.length (a.length + 1)

/-- Python `ceil(order/2) - 1`, the minimum key count `m` of the spec.
`ceil(o/2) = floor((o+1)/2)` holds for every integer `o`. -/
def minKeys (o : Int) : Int := (o + 1).fdiv 2 - 1

/-- `BPlusTree_Node`: keys, leaf values, child/parent/sibling/leaf-chain
links as arena indices.  Keys and values are integers (the tree stores
only the image of the user key under the ordering function). -/
structure BNode where
  order : Int
  keys : List Int := []
  values : List Int := []
  children : List Nat := []
  parent : Option Nat := none
  left : Option Nat := none
  right : Option Nat := none
  next : Option Nat := none
deriving Repr, DecidableEq, Inhabited

/-- `Node.full`: `len(keys) >= order`. -/
def BNode.full (n : BNode) : Bool := decide (n.order ≤ (n.keys.length : Int))

/-- `Node.empty`: `len(keys) <= 0`. -/
def BNode.empty (n : BNode) : Bool := decide (n.keys.length = 0)

/-- `Node.leaf`: `len(children) == 0`. -/
def BNode.leaf (n : BNode) : Bool := n.children.isEmpty

/-- `Node.root`: `not parent`. -/
def BNode.root (n : BNode) : Bool := n.parent.isNone

/-- `Node.valid`: `root or len(keys) >= ceil(order/2)-1`. -/
def BNode.valid (n : BNode) : Bool :=
  n.root || decide (minKeys n.order ≤ (n.keys.length : Int))

/-- `Node.borrowable`: `len(keys) > ceil(order/2)-1`. -/
def BNode.borrowable (n : BNode) : Bool :=
  decide (minKeys n.order < (n.keys.length : Int))

/-- The `BPlusTree` state: node arena, root index, head-leaf index
(`_leaf`), element count (`len`), and the order.  The ordering function
(`hash_func`) is passed to each operation instead of being stored, so the
state stays a plain comparable value. -/
structure BPlusTree where
  arena : List BNode
  root : Nat
  leaf : Nat
  len : Int
  order : Int
deriving Repr, DecidableEq, Inhabited

/-- Fetch a node by arena index (indices held by a tree are always
allocated, so the default is never observed in a run of the model). -/
def BPlusTree.node (σ : BPlusTree) (i : Nat) : BNode := (σ.arena.get? i).getD default

/-- Overwrite a node in the arena. -/
def BPlusTree.setNode (σ : BPlusTree) (i : Nat) (n : BNode) : BPlusTree :=
  { σ with arena := σ.arena.set i n }

/-- A fresh `BPlusTree_Node(order)`. -/
def freshNode (o : Int) : BNode := { order := o }

/-- The state `BPlusTree.__init__` builds for an integer order and a
callable ordering function. -/
def mkTree (o : Int) : BPlusTree :=
  { arena := [freshNode o], root := 0, leaf := 0, len := 0, order := o }

/-- Result of a mutating operation: both on normal return and on a raised
exception the caller keeps the (possibly partially mutated) tree. -/
inductive MRes where
  | ok (σ : BPlusTree)
  | err (σ : BPlusTree) (e : PyErr)
deriving Repr, DecidableEq

/-- State component of an operation result. -/
def MRes.state : MRes → BPlusTree
  | .ok σ => σ
  | .err σ _ => σ

/-- Did the operation raise the given exception? -/
def MRes.isErr (r : MRes) (e : PyErr) : Bool :=
  match r with
  | .ok _ => false
  | .err _ e' => e' == e

/-- Did the operation return normally? -/
def MRes.isOk (r : MRes) : Bool :=
  match r with
  | .ok _ => true
  | .err _ _ => false

/-- Loop body of `BPlusTree._find_target_leaf`: descend from `tid` choosing
`children[bisect_right(keys, key)]` until a leaf is reached.  The function
only reads the tree, so it returns the leaf index alone. -/
def findLoop (σ : BPlusTree) (key : Int) : Nat → Nat → Except PyErr Nat
  | _, 0 => .error .recursionError
  | tid, fuel + 1 =>
    let t := σ.node tid
    if t.leaf then .ok tid
    else
      let pos := bisectRight t.keys key
      match t.children.get? pos with
      | some c => findLoop σ key c fuel
      | none => .error .idxError

/-- `BPlusTree._find_target_leaf(key)` starting from the root. -/
def findTargetLeaf (σ : BPlusTree) (key : Int) (fuel : Nat) : Except PyErr Nat :=
  findLoop σ key σ.root fuel

/-- `for n in children_list: n.parent = pid` — the reparenting loops of
`_split_node` and `_fix_node`. -/
def reparentAll (σ : BPlusTree) (l : List Nat) (pid : Nat) : BPlusTree :=
  l.foldl (fun s c => s.setNode c { s.node c with parent := some pid }) σ

/-- The leaf/internal halving step of `BPlusTree._split_node` (lines
218-227 of the source): partition keys (and values or children) of node
`nid` at `pos` between the node and its fresh right sibling `newId`,
fixing the leaf chain or the child links. -/
def splitHalves (σ4 : BPlusTree) (nid newId pos : Nat) : MRes :=
  let n := σ4.node nid
  if n.leaf then
    -- node.keys, new.keys = node.keys[:pos], node.keys[pos:]   (values alike)
    -- node.next, new.next = new, node.next
    let σ5 := σ4.setNode nid
      { n with keys := n.keys.take pos, values := n.values.take pos,
               next := some newId }
    let σ6 := σ5.setNode newId
      { σ5.node newId with keys := n.keys.drop pos, values := n.values.drop pos,
                           next := n.next }
    .ok σ6
  else
    -- node.keys, new.keys = node.keys[:pos], node.keys[pos+1:]
    -- node.children, new.children = node.children[:pos+1], node.children[pos+1:]
    let σ5 := σ4.setNode nid
      { n with keys := n.keys.take pos, children := n.children.take (pos + 1) }
    let σ6 := σ5.setNode newId
      { σ5.node newId with keys := n.keys.drop (pos + 1),
                           children := n.children.drop (pos + 1) }
    -- node.children[-1].right = new.children[0].left = None
    match pyGetI (σ6.node nid).children (-1 : Int) with
    | .error e => .err σ6 e
    | .ok lastId =>
      let σ7 := σ6.setNode lastId { σ6.node lastId with right := none }
      match pyGetI (σ7.node newId).children (0 : Int) with
      | .error e => .err σ7 e
      | .ok firstId =>
        let σ8 := σ7.setNode firstId { σ7.node firstId with left := none }
        -- for n in new.children: n.parent = new
        let σ9 := reparentAll σ8 (σ8.node newId).children newId
        .ok σ9

/-- `BPlusTree._split_node(node)`: recursive split of a full node.  The
fuel bounds the upward recursion (Python's recursion limit). -/
def splitNode (σ : BPlusTree) (nid : Nat) : Nat → MRes
  | 0 => .err σ .recursionError
  | fuel + 1 =>
    let n := σ.node nid
    if ¬ n.full then .ok σ
    else
      -- pos = int(len(node.keys)/2)
      let pos := n.keys.length / 2
      -- if node.root: self._root = node.parent = BPlusTree_Node(order);
      --               node.parent.children.append(node)
      let σ1 :=
        if n.root then
          let rid := σ.arena.length
          let σa := { σ with
            arena := σ.arena ++ [{ freshNode σ.order with children := [nid] }],
            root := rid }
          σa.setNode nid { n with parent := some rid }
        else σ
      let n := σ1.node nid
      -- new = BPlusTree_Node(order, node.parent)
      let newId := σ1.arena.length
      let σ2 := { σ1 with arena := σ1.arena ++ [{ freshNode σ1.order with parent := n.parent }] }
      -- new.left, new.right, node.right = node, node.right, new
      -- (note: the old right sibling's `left` pointer is NOT updated here)
      let σ3 := σ2.setNode newId { σ2.node newId with left := some nid, right := n.right }
      let σ4 := σ3.setNode nid { σ3.node nid with right := some newId }
      let n := σ4.node nid
      -- split_key = node.keys[pos]
      match pyGetI n.keys (pos : Int) with
      | .error e => .err σ4 e
      | .ok splitKey =>
        match splitHalves σ4 nid newId pos with
        | .err σ' e => .err σ' e
        | .ok σ7 =>
          -- pos = bisect_right(node.parent.keys, split_key)
          -- node.parent.keys.insert(pos, split_key)
          -- node.parent.children.insert(pos+1, new)
          match (σ7.node nid).parent with
          | none => .err σ7 .attrError
          | some pid =>
            let p := σ7.node pid
            let ipos := bisectRight p.keys splitKey
            let σ8 := σ7.setNode pid
              { p with keys := pyInsertAt p.keys (ipos : Int) splitKey,
                       children := pyInsertAt p.children ((ipos : Int) + 1) newId }
            splitNode σ8 pid fuel

/-- The borrow-from-left branch of `BPlusTree._fix_node` (node invalid,
left sibling exists and is borrowable). -/
def fixBorrowLeft (σ : BPlusTree) (nid lid : Nat) : MRes :=
  -- split_key = node.left.keys.pop()
  let lnode := σ.node lid
  match pyPopI lnode.keys (-1 : Int) with
  | .error e => .err σ e
  | .ok (splitKey, lkeys) =>
    let σ := σ.setNode lid { lnode with keys := lkeys }
    let n := σ.node nid
    match n.parent with
    | none => .err σ .attrError
    | some pid =>
      -- pos = bisect_left(node.parent.keys, split_key)
      let pos := bisectLeft (σ.node pid).keys splitKey
      if n.leaf then
        -- key = split_key; node.values.insert(0, node.left.values.pop())
        match pyPopI (σ.node lid).values (-1 : Int) with
        | .error e => .err σ e
        | .ok (v, lvals) =>
          let σ := σ.setNode lid { σ.node lid with values := lvals }
          let σ := σ.setNode nid { σ.node nid with values := v :: (σ.node nid).values }
          -- node.keys.insert(0, key); node.parent.keys[pos] = split_key
          let σ := σ.setNode nid { σ.node nid with keys := splitKey :: (σ.node nid).keys }
          match pySetI (σ.node pid).keys (pos : Int) splitKey with
          | .error e => .err σ e
          | .ok pkeys => .ok (σ.setNode pid { σ.node pid with keys := pkeys })
      else
        -- key = node.parent.keys[pos]; child = node.left.children.pop()
        -- child.parent, child.left, child.right = node, None, node.children[0]
        -- node.children[0].left = child; node.children.insert(0, child)
        match pyGetI (σ.node pid).keys (pos : Int) with
        | .error e => .err σ e
        | .ok key =>
          match pyPopI (σ.node lid).children (-1 : Int) with
          | .error e => .err σ e
          | .ok (child, lch) =>
            let σ := σ.setNode lid { σ.node lid with children := lch }
            match pyGetI (σ.node nid).children (0 : Int) with
            | .error e => .err σ e
            | .ok c0 =>
              let σ := σ.setNode child
                { σ.node child with parent := some nid, left := none, right := some c0 }
              let σ := σ.setNode c0 { σ.node c0 with left := some child }
              let σ := σ.setNode nid
                { σ.node nid with children := child :: (σ.node nid).children }
              -- node.keys.insert(0, key); node.parent.keys[pos] = split_key
              let σ := σ.setNode nid { σ.node nid with keys := key :: (σ.node nid).keys }
              match pySetI (σ.node pid).keys (pos : Int) splitKey with
              | .error e => .err σ e
              | .ok pkeys => .ok (σ.setNode pid { σ.node pid with keys := pkeys })

/-- The borrow-from-right branch of `BPlusTree._fix_node` (node invalid,
left sibling absent or not borrowable, right sibling borrowable). -/
def fixBorrowRight (σ : BPlusTree) (nid rid : Nat) : MRes :=
  -- split_key = node.right.keys.pop(0)
  let rnode := σ.node rid
  match pyPopI rnode.keys (0 : Int) with
  | .error e => .err σ e
  | .ok (splitKey0, rkeys) =>
    let σ := σ.setNode rid { rnode with keys := rkeys }
    let n := σ.node nid
    match n.parent with
    | none => .err σ .attrError
    | some pid =>
      -- pos = bisect_right(node.parent.keys, split_key)
      let pos := bisectRight (σ.node pid).keys splitKey0
      if n.leaf then
        -- key, split_key = split_key, node.right.keys[0]
        -- node.values.append(node.right.values.pop(0))
        match pyGetI (σ.node rid).keys (0 : Int) with
        | .error e => .err σ e
        | .ok newSplit =>
          match pyPopI (σ.node rid).values (0 : Int) with
          | .error e => .err σ e
          | .ok (v, rvals) =>
            let σ := σ.setNode rid { σ.node rid with values := rvals }
            let σ := σ.setNode nid { σ.node nid with values := (σ.node nid).values ++ [v] }
            -- node.keys.append(key); node.parent.keys[pos-1] = split_key
            let σ := σ.setNode nid { σ.node nid with keys := (σ.node nid).keys ++ [splitKey0] }
            match pySetI (σ.node pid).keys ((pos : Int) - 1) newSplit with
            | .error e => .err σ e
            | .ok pkeys => .ok (σ.setNode pid { σ.node pid with keys := pkeys })
      else
        -- key = node.parent.keys[pos]; child = node.right.children.pop(0)
        -- child.parent, child.left, child.right = node, node.children[-1], None
        -- node.children[-1].right = child; node.children.append(child)
        match pyGetI (σ.node pid).keys (pos : Int) with
        | .error e => .err σ e
        | .ok key =>
          match pyPopI (σ.node rid).children (0 : Int) with
          | .error e => .err σ e
          | .ok (child, rch) =>
            let σ := σ.setNode rid { σ.node rid with children := rch }
            match pyGetI (σ.node nid).children (-1 : Int) with
            | .error e => .err σ e
            | .ok clast =>
              let σ := σ.setNode child
                { σ.node child with parent := some nid, left := some clast, right := none }
              let σ := σ.setNode clast { σ.node clast with right := some child }
              let σ := σ.setNode nid
                { σ.node nid with children := (σ.node nid).children ++ [child] }
              -- node.keys.append(key); node.parent.keys[pos-1] = split_key
              let σ := σ.setNode nid { σ.node nid with keys := (σ.node nid).keys ++ [key] }
              match pySetI (σ.node pid).keys ((pos : Int) - 1) splitKey0 with
              | .error e => .err σ e
              | .ok pkeys => .ok (σ.setNode pid { σ.node pid with keys := pkeys })

/-- The merge branch of `BPlusTree._fix_node` given the chosen pair
`merge_left = mlid`, `merge_right = mrOpt` (the latter is `None` exactly
when the node has neither sibling).  Performs everything up to (but not
including) the recursive `_fix_node(merge_left.parent)` call and returns
the state together with the parent index to recurse on. -/
def fixMergeCore (σ : BPlusTree) (mlid : Nat) (mrOpt : Option Nat) :
    Except (BPlusTree × PyErr) (BPlusTree × Nat) :=
  let ml := σ.node mlid
  -- pos = bisect_right(merge_left.parent.keys, merge_left.keys[0])
  match pyGetI ml.keys (0 : Int) with
  | .error e => .error (σ, e)
  | .ok mk0 =>
    match ml.parent with
    | none => .error (σ, .attrError)
    | some pid =>
      let pos := bisectRight (σ.node pid).keys mk0
      -- split_key = merge_left.parent.keys.pop(pos)
      match pyPopI (σ.node pid).keys (pos : Int) with
      | .error e => .error (σ, e)
      | .ok (splitKey, pkeys) =>
        let σ := σ.setNode pid { σ.node pid with keys := pkeys }
        -- merge_left.parent.children.pop(pos+1)
        match pyPopI (σ.node pid).children ((pos : Int) + 1) with
        | .error e => .error (σ, e)
        | .ok (_, pch) =>
          let σ := σ.setNode pid { σ.node pid with children := pch }
          -- merge_right is accessed from here on; None raises AttributeError
          match mrOpt with
          | none => .error (σ, .attrError)
          | some mrid =>
            -- merge_left.keys += merge_right.keys
            let σ := σ.setNode mlid
              { σ.node mlid with keys := (σ.node mlid).keys ++ (σ.node mrid).keys }
            -- merge_left.right = merge_right.right; fix back link
            let σ := σ.setNode mlid { σ.node mlid with right := (σ.node mrid).right }
            let σ :=
              match (σ.node mrid).right with
              | some rr => σ.setNode rr { σ.node rr with left := some mlid }
              | none => σ
            if (σ.node mlid).leaf then
              -- merge_left.values += merge_right.values; merge_left.next = merge_right.next
              let σ := σ.setNode mlid
                { σ.node mlid with values := (σ.node mlid).values ++ (σ.node mrid).values,
                                   next := (σ.node mrid).next }
              match (σ.node mlid).parent with
              | some q => .ok (σ, q)
              | none => .error (σ, .attrError)
            else
              -- merge_left.keys.insert(len(merge_left.children)-1, split_key)
              let ml := σ.node mlid
              let σ := σ.setNode mlid
                { ml with keys := pyInsertAt ml.keys ((ml.children.length : Int) - 1) splitKey }
              -- merge_left.children[-1].right, merge_right.children[0].left =
              --   merge_right.children[0], merge_left.children[-1]
              match pyGetI (σ.node mrid).children (0 : Int) with
              | .error e => .error (σ, e)
              | .ok mrc0 =>
                match pyGetI (σ.node mlid).children (-1 : Int) with
                | .error e => .error (σ, e)
                | .ok mlcL =>
                  let σ := σ.setNode mlcL { σ.node mlcL with right := some mrc0 }
                  let σ := σ.setNode mrc0 { σ.node mrc0 with left := some mlcL }
                  -- merge_left.children += merge_right.children
                  let σ := σ.setNode mlid
                    { σ.node mlid with
                      children := (σ.node mlid).children ++ (σ.node mrid).children }
                  -- for n in merge_right.children: n.parent = merge_left
                  let σ := reparentAll σ (σ.node mrid).children mlid
                  match (σ.node mlid).parent with
                  | some q => .ok (σ, q)
                  | none => .error (σ, .attrError)

/-- `merge_left, merge_right = (node.left, node) if node.left else
(node, node.right)`, then the merge body. -/
def fixMerge (σ : BPlusTree) (nid : Nat) : Except (BPlusTree × PyErr) (BPlusTree × Nat) :=
  match (σ.node nid).left with
  | some l => fixMergeCore σ l (some nid)
  | none => fixMergeCore σ nid ((σ.node nid).right)

/-- The root-collapse step opening `BPlusTree._fix_node`: an empty
internal root is replaced by its sole child. -/
def rootCollapse (σ : BPlusTree) (nid : Nat) : MRes :=
  let n := σ.node nid
  if n.root && !n.leaf && n.empty then
    -- self._root = node.children.pop(); self._root.parent = None
    match n.children.getLast? with
    | some c =>
      let σa := σ.setNode nid { n with children := n.children.dropLast }
      let σb := { σa with root := c }
      .ok (σb.setNode c { σb.node c with parent := none })
    | none => .err σ .idxError
  else .ok σ

/-- `if sib and sib.borrowable` for an optional sibling. -/
def sibBorrowable (σ : BPlusTree) (sib : Option Nat) : Bool :=
  match sib with
  | some s => (σ.node s).borrowable
  | none => false

/-- `BPlusTree._fix_node(node)`: root collapse, validity check, borrow
from a sibling, or merge followed by the recursive fix of the parent. -/
def fixNode (σ : BPlusTree) (nid : Nat) : Nat → MRes
  | 0 => .err σ .recursionError
  | fuel + 1 =>
    match rootCollapse σ nid with
    | .err σ' e => .err σ' e
    | .ok σ1 =>
      let n := σ1.node nid
      if n.valid then .ok σ1
      else if sibBorrowable σ1 n.left then
        match n.left with
        | some lid => fixBorrowLeft σ1 nid lid
        | none => .err σ1 .attrError
      else if sibBorrowable σ1 n.right then
        match n.right with
        | some rid => fixBorrowRight σ1 nid rid
        | none => .err σ1 .attrError
      else
        match fixMerge σ1 nid with
        | .error (σ2, e) => .err σ2 e
        | .ok (σ2, pid) => fixNode σ2 pid fuel

/-- `BPlusTree.search(key)`: read-only, returns the value or raises. -/
def searchOp (σ : BPlusTree) (f : Int → Int) (key : Int) (fuel : Nat) :
    Except PyErr Int :=
  let hk := f key
  match findTargetLeaf σ hk fuel with
  | .error e => .error e
  | .ok did =>
    let dest := σ.node did
    let pos := bisectLeft dest.keys hk
    -- if dest.empty or dest.keys[pos] != hash_key: raise ValueError
    if dest.empty then .error .keyNotFound
    else
      match pyGetI dest.keys (pos : Int) with
      | .error e => .error e
      | .ok k' =>
        if k' ≠ hk then .error .keyNotFound
        else pyGetI dest.values (pos : Int)

/-- The shared tail of `BPlusTree.insert` (lines 458-459): split check on
the target leaf, then `self.len += 1` — also on the update path. -/
def insertTail (σ : BPlusTree) (did : Nat) (fuel : Nat) : MRes :=
  match splitNode σ did fuel with
  | .err σ' e => .err σ' e
  | .ok σ' => .ok { σ' with len := σ'.len + 1 }

/-- The fresh-key branch of `BPlusTree.insert` (lines 456-457):
`dest.keys.insert(pos, hash_key); dest.values.insert(pos, value)`,
followed by the shared tail. -/
def insertNew (σ : BPlusTree) (did : Nat) (pos : Nat) (hk v : Int) (fuel : Nat) : MRes :=
  let dest := σ.node did
  let σ1 := σ.setNode did
    { dest with keys := pyInsertAt dest.keys (pos : Int) hk,
                values := pyInsertAt dest.values (pos : Int) v }
  insertTail σ1 did fuel

/-- `BPlusTree.insert(key, value, update)`. -/
def insertOp (σ : BPlusTree) (f : Int → Int) (key v : Int) (update : Bool)
    (fuel : Nat) : MRes :=
  let hk := f key
  match findTargetLeaf σ hk fuel with
  | .error e => .err σ e
  | .ok did =>
    let dest := σ.node did
    -- pos = bisect_right(dest.keys, hash_key)
    let pos := bisectRight dest.keys hk
    -- if not dest.empty and dest.keys[pos-1] == hash_key
    if dest.empty then insertNew σ did pos hk v fuel
    else
      match pyGetI dest.keys ((pos : Int) - 1) with
      | .error e => .err σ e
      | .ok k' =>
        if k' == hk then
          if update then
            -- dest.values[pos-1] = value, then the shared tail (len += 1!)
            match pySetI dest.values ((pos : Int) - 1) v with
            | .error e => .err σ e
            | .ok vs => insertTail (σ.setNode did { dest with values := vs }) did fuel
          else .err σ .dupKey
        else insertNew σ did pos hk v fuel

/-- `BPlusTree.delete(key)`. -/
def deleteOp (σ : BPlusTree) (f : Int → Int) (key : Int) (fuel : Nat) : MRes :=
  let hk := f key
  match findTargetLeaf σ hk fuel with
  | .error e => .err σ e
  | .ok did =>
    let dest := σ.node did
    let pos := bisectLeft dest.keys hk
    -- if dest.empty or dest.keys[pos] != hash_key: raise ValueError
    if dest.empty then .err σ .keyNotFound
    else
      match pyGetI dest.keys (pos : Int) with
      | .error e => .err σ e
      | .ok k' =>
        if k' ≠ hk then .err σ .keyNotFound
        else
          -- dest.keys.pop(pos); dest.values.pop(pos)
          match pyPopI dest.keys (pos : Int) with
          | .error e => .err σ e
          | .ok (_, ks) =>
            let σ1 := σ.setNode did { dest with keys := ks }
            match pyPopI (σ1.node did).values (pos : Int) with
            | .error e => .err σ1 e
            | .ok (_, vs) =>
              let σ2 := σ1.setNode did { σ1.node did with values := vs }
              match fixNode σ2 did fuel with
              | .err σ' e => .err σ' e
              | .ok σ' => .ok { σ' with len := σ'.len - 1 }

/-- `BPlusTree.clear()`: installs a fresh empty root that is also the head
leaf.  Note the source does NOT touch `self.len`. -/
def clearOp (σ : BPlusTree) : BPlusTree :=
  let nid := σ.arena.length
  { σ with arena := σ.arena ++ [freshNode σ.order], root := nid, leaf := nid }

/-- Loop of `BPlusTree._iterate_by_slice(None)`: emit `(keys[pos],
values[pos])`, advance, follow the leaf chain.  With no slice the loop
condition is always true, so only chain exhaustion stops it. -/
def chainLoop (σ : BPlusTree) : Nat → Nat → Nat → Except PyErr (List (Int × Int))
  | _, _, 0 => .error .recursionError
  | lid, pos, fuel + 1 =>
    let lf := σ.node lid
    match pyGetI lf.keys (pos : Int) with
    | .error e => .error e
    | .ok k =>
      match pyGetI lf.values (pos : Int) with
      | .error e => .error e
      | .ok v =>
        let pos' := pos + 1
        if pos' ≥ lf.keys.length then
          match lf.next with
          | none => .ok [(k, v)]
          | some nlid =>
            match chainLoop σ nlid 0 fuel with
            | .error e => .error e
            | .ok rest => .ok ((k, v) :: rest)
        else
          match chainLoop σ lid pos' fuel with
          | .error e => .error e
          | .ok rest => .ok ((k, v) :: rest)

/-- `BPlusTree.items()` (i.e. `_iterate_by_slice` with no slice),
materialised to a list: starts at the head leaf; if the head leaf is
empty the iteration is empty. -/
def itemsOp (σ : BPlusTree) (fuel : Nat) : Except PyErr (List (Int × Int)) :=
  let lf := σ.node σ.leaf
  if lf.empty then .ok []
  else chainLoop σ σ.leaf 0 fuel

/-- The Python `order` argument: an `int` or some non-integer object. -/
inductive PyOrderArg where
  | int (n : Int)
  | notInt
deriving DecidableEq, Repr

/-- The Python `hash_func` argument: a callable `key -> ordered key`
mapping, or some non-callable object. -/
inductive PyFuncArg where
  | callable (f : Int → Int)
  | notCallable

/-- Is the argument callable? -/
def PyFuncArg.isCallable : PyFuncArg → Bool
  | .callable _ => true
  | .notCallable => false

/-- `BPlusTree.__init__(order, hash_func)`: rejects a non-integer order and
a non-callable ordering function, in that source order; any integer order
(positive or not) is accepted.  The callable itself is not stored in the
state (operations receive it as a parameter). -/
def initTree : PyOrderArg → PyFuncArg → Except PyErr BPlusTree
  | .notInt, _ => .error .orderNotInt
  | .int o, fa => if fa.isCallable then .ok (mkTree o) else .error .notCallable

/-- Insert the keys of a list in order with value = key and identity
ordering function (as the repository's tests do), stopping at the first
failure. -/
def insertList (σ : BPlusTree) (ks : List Int) (fuel : Nat) : MRes :=
  ks.foldl
    (fun r k =>
      match r with
      | .ok σ => insertOp σ (fun x => x) k k false fuel
      | .err σ' e => .err σ' e)
    (.ok σ)

/-- Apply one scripted public operation with identity ordering function and
value = key: `(true, k)` is `insert(k, k)`, `(false, k)` is `delete(k)`. -/
def applyOp (σ : BPlusTree) (p : Bool × Int) (fuel : Nat) : MRes :=
  if p.1 then insertOp σ (fun x => x) p.2 p.2 false fuel
  else deleteOp σ (fun x => x) p.2 fuel

/-- Run a script of public operations, stopping at the first raised
exception (so `isOk` of the result states that every operation of the
script completed normally). -/
def runOps (σ : BPlusTree) (ops : List (Bool × Int)) (fuel : Nat) : MRes :=
  ops.foldl
    (fun r p =>
      match r with
      | .ok σ => applyOp σ p fuel
      | .err σ' e => .err σ' e)
    (.ok σ)

/-- `insert(1,1) .. insert(n,n)` in ascending order. -/
def ascInserts (n : Nat) : List (Bool × Int) :=
  (List.range n).map (fun i => (true, (i : Int) + 1))

/-- Arena indices of the nodes of the tree: everything reachable from the
root through `children` (breadth-first, fuel-bounded). -/
def reachAux (σ : BPlusTree) : Nat → List Nat → List Nat → List Nat
  | 0, acc, _ => acc
  | _, acc, [] => acc
  | fuel + 1, acc, t :: rest => reachAux σ fuel (t :: acc) ((σ.node t).children ++ rest)

/-- The set of nodes that make up the tree (reachable from the root). -/
def reachableIds (σ : BPlusTree) : List Nat :=
  reachAux σ (σ.arena.length * 8 + 20) [] [σ.root]

/-- All `(key, value)` pairs along the leaf chain starting at the head
leaf, following `next` links (the spec's observable leaf-chain contents). -/
def chainDumpAux (σ : BPlusTree) : Nat → Option Nat → List (Int × Int)
  | 0, _ => []
  | _, none => []
  | fuel + 1, some lid =>
    let n := σ.node lid
    (n.keys.zip n.values) ++ chainDumpAux σ fuel n.next

/-- Leaf-chain contents of the tree. -/
def chainDump (σ : BPlusTree) : List (Int × Int) :=
  chainDumpAux σ (σ.arena.length + 5) (some σ.leaf)

deriving instance DecidableEq for Except

/-- A state with the single key 1 in the root leaf (order 4). -/
def sigmaOne : BPlusTree := (insertOp (mkTree 4) (fun x => x) 1 1 false 100).state

/-- A state with `(1, 10)` inserted into an empty order-4 tree. -/
def sigmaC2 : BPlusTree := (insertOp (mkTree 4) (fun x => x) 1 10 false 100).state

/-- The result of `insert(1, 20, update=True)` on `sigmaC2`. -/
def sigmaC2upd : MRes := insertOp sigmaC2 (fun x => x) 1 20 true 100

/-- The order-3 scenario of the claim: keys 1..20 inserted in ascending
order. -/
def sigmaC4 : MRes := runOps (mkTree 3) (ascInserts 20) 100

/-- An 11-step crash-free script at order 3: ten inserts and one delete,
each of which returns normally. -/
def seqC5 : List (Bool × Int) :=
  [(true, 5), (true, 12), (true, 8), (true, 7), (true, 9), (true, 10),
   (true, 2), (true, 6), (true, 1), (true, 4), (false, 8)]

/-- The state after running `seqC5` from an empty order-3 tree. -/
def sigmaC5 : BPlusTree := (runOps (mkTree 3) seqC5 200).state

/-- The round-trip `insert(8, 8); delete(8)` run on `sigmaC5`
(key 8 is not stored there). -/
def rtC8 : MRes := runOps sigmaC5 [(true, 8), (false, 8)] 200

/-- Does the constructor raise? -/
def initFails (oa : PyOrderArg) (fa : PyFuncArg) : Bool :=
  match initTree oa fa with
  | .error _ => true
  | .ok _ => false

/-- Is the order argument an integer? -/
def PyOrderArg.isInt : PyOrderArg → Bool
  | .int _ => true
  | .notInt => false

/-- Parent node for the split theorems: keys `pk`, sole child `1`. -/
def splitParent (o : Int) (pk : List Int) : BNode :=
  { order := o, keys := pk, children := [1] }

/-- A full leaf (keys `ks`, values `vs`) under `splitParent o pk`. -/
def splitLeafSt (o : Int) (pk ks vs : List Int) : BPlusTree :=
  { arena := [splitParent o pk,
              { order := o, keys := ks, values := vs, parent := some 0 }],
    root := 0, leaf := 1, len := ks.length, order := o }

/-- A full internal node (keys `ks`, children `cs`) under `splitParent o pk`.
The child ids `cs` point outside the two-node arena (arbitrary ids `≥ 3`);
only the key/children bookkeeping of the split is at stake here. -/
def splitInnerSt (o : Int) (pk ks : List Int) (cs : List Nat) : BPlusTree :=
  { arena := [splitParent o pk,
              { order := o, keys := ks, children := cs, parent := some 0 }],
    root := 0, leaf := 1, len := 0, order := o }

/-- A `PyErr` is a structural error (`IndexError`, `AttributeError` or
`RecursionError`) — not one of the `ValueError` kinds raised deliberately
by the public methods. -/
def PyErr.structural : PyErr → Prop
  | .idxError => True
  | .attrError => True
  | .recursionError => True
  | _ => False

theorem pyGetI_error {α : Type} {a : List α} {i : Int} {e : PyErr}
    (h : pyGetI a i = .error e) : e = .idxError := by
  unfold pyGetI at h
  repeat' split at h
  all_goals (cases h <;> rfl)

theorem pySetI_error {α : Type} {a : List α} {i : Int} {x : α} {e : PyErr}
    (h : pySetI a i x = .error e) : e = .idxError := by
  unfold pySetI at h
  repeat' split at h
  all_goals (cases h <;> rfl)

theorem pyPopI_error {α : Type} {a : List α} {i : Int} {e : PyErr}
    (h : pyPopI a i = .error e) : e = .idxError := by
  unfold pyPopI at h
  repeat' split at h
  all_goals (cases h <;> rfl)

theorem structural_of_pyGet {α : Type} {a : List α} {i : Int} {e : PyErr}
    (h : pyGetI a i = .error e) : e.structural := by
  rw [pyGetI_error h]
  trivial

theorem structural_of_pySet {α : Type} {a : List α} {i : Int} {x : α} {e : PyErr}
    (h : pySetI a i x = .error e) : e.structural := by
  rw [pySetI_error h]
  trivial

theorem structural_of_pyPop {α : Type} {a : List α} {i : Int} {e : PyErr}
    (h : pyPopI a i = .error e) : e.structural := by
  rw [pyPopI_error h]
  trivial

theorem splitHalves_err_class {σ : BPlusTree} {nid newId pos : Nat}
    {σ' : BPlusTree} {e : PyErr} (h : splitHalves σ nid newId pos = .err σ' e) :
    e.structural := by
  simp only [splitHalves] at h
  repeat' split at h
  all_goals first
    | (cases h <;> trivial)
    | (cases h <;> exact structural_of_pyGet (by assumption))

theorem splitNode_err_class : ∀ (fuel : Nat) (σ : BPlusTree) (nid : Nat)
    (σ' : BPlusTree) (e : PyErr), splitNode σ nid fuel = .err σ' e →
    e.structural := by
  intro fuel
  induction fuel with
  | zero =>
    intro σ nid σ' e h
    simp only [splitNode] at h
    cases h
    trivial
  | succ n ih =>
    intro σ nid σ' e h
    simp only [splitNode] at h
    repeat' split at h
    all_goals first
      | (cases h <;> trivial)
      | (cases h <;> exact structural_of_pyGet (by assumption))
      | (cases h <;> exact splitHalves_err_class (by assumption))
      | (exact ih _ _ _ _ h)

set_option maxHeartbeats 1000000 in
theorem rootCollapse_err_class {σ : BPlusTree} {nid : Nat} {σ' : BPlusTree}
    {e : PyErr} (h : rootCollapse σ nid = .err σ' e) : e.structural := by
  simp only [rootCollapse] at h
  repeat' split at h
  all_goals (cases h <;> trivial)

set_option maxHeartbeats 1000000 in
theorem fixBorrowLeft_err_class {σ : BPlusTree} {nid lid : Nat} {σ' : BPlusTree}
    {e : PyErr} (h : fixBorrowLeft σ nid lid = .err σ' e) : e.structural := by
  simp only [fixBorrowLeft] at h
  repeat' split at h
  all_goals first
    | (cases h <;> trivial)
    | (cases h <;> exact structural_of_pyGet (by assumption))
    | (cases h <;> exact structural_of_pySet (by assumption))
    | (cases h <;> exact structural_of_pyPop (by assumption))

set_option maxHeartbeats 1000000 in
theorem fixBorrowRight_err_class {σ : BPlusTree} {nid rid : Nat} {σ' : BPlusTree}
    {e : PyErr} (h : fixBorrowRight σ nid rid = .err σ' e) : e.structural := by
  simp only [fixBorrowRight] at h
  repeat' split at h
  all_goals first
    | (cases h <;> trivial)
    | (cases h <;> exact structural_of_pyGet (by assumption))
    | (cases h <;> exact structural_of_pySet (by assumption))
    | (cases h <;> exact structural_of_pyPop (by assumption))

set_option maxHeartbeats 1000000 in
theorem fixMergeCore_err_class {σ : BPlusTree} {mlid : Nat} {mrOpt : Option Nat}
    {σ' : BPlusTree} {e : PyErr} (h : fixMergeCore σ mlid mrOpt = .error (σ', e)) :
    e.structural := by
  simp only [fixMergeCore] at h
  repeat' split at h
  all_goals first
    | (cases h <;> trivial)
    | (cases h <;> exact structural_of_pyGet (by assumption))
    | (cases h <;> exact structural_of_pyPop (by assumption))

theorem fixMerge_err_class {σ : BPlusTree} {nid : Nat} {σ' : BPlusTree}
    {e : PyErr} (h : fixMerge σ nid = .error (σ', e)) : e.structural := by
  simp only [fixMerge] at h
  repeat' split at h
  all_goals (exact fixMergeCore_err_class h)

set_option maxHeartbeats 1000000 in
theorem fixNode_err_class : ∀ (fuel : Nat) (σ : BPlusTree) (nid : Nat)
    (σ' : BPlusTree) (e : PyErr), fixNode σ nid fuel = .err σ' e →
    e.structural := by
  intro fuel
  induction fuel with
  | zero =>
    intro σ nid σ' e h
    simp only [fixNode] at h
    cases h
    trivial
  | succ n ih =>
    intro σ nid σ' e h
    simp only [fixNode] at h
    repeat' split at h
    all_goals first
      | (cases h <;> trivial)
      | (cases h <;> exact rootCollapse_err_class (by assumption))
      | (cases h <;> exact fixBorrowLeft_err_class (by assumption))
      | (cases h <;> exact fixBorrowRight_err_class (by assumption))
      | (cases h <;> exact fixMergeCore_err_class (by assumption))
      | (cases h <;> exact fixMerge_err_class (by assumption))
      | (exact fixBorrowLeft_err_class h)
      | (exact fixBorrowRight_err_class h)
      | (exact ih _ _ _ _ h)

theorem insertTail_err_class {σ : BPlusTree} {did fuel : Nat} {σ' : BPlusTree}
    {e : PyErr} (h : insertTail σ did fuel = .err σ' e) : e.structural := by
  simp only [insertTail] at h
  repeat' split at h
  all_goals first
    | (cases h <;> exact splitNode_err_class _ _ _ _ _ (by assumption))
    | cases h

theorem insertNew_err_class {σ : BPlusTree} {did pos : Nat} {hk v : Int}
    {fuel : Nat} {σ' : BPlusTree} {e : PyErr}
    (h : insertNew σ did pos hk v fuel = .err σ' e) : e.structural := by
  simp only [insertNew] at h
  exact insertTail_err_class h

set_option maxHeartbeats 1000000 in
/-- C6: a failing operation is atomic.  If `insert` raises `DuplicateKey`
the returned state is exactly the pre-call state, and if `delete` raises
`KeyNotFound` the returned state is exactly the pre-call state — element
count and every node unchanged. -/
theorem failed_insert_delete_atomic :
    (∀ (σ : BPlusTree) (f : Int → Int) (k v : Int) (u : Bool) (fuel : Nat)
       (σ' : BPlusTree), insertOp σ f k v u fuel = .err σ' .dupKey → σ' = σ) ∧
    (∀ (σ : BPlusTree) (f : Int → Int) (k : Int) (fuel : Nat)
       (σ' : BPlusTree), deleteOp σ f k fuel = .err σ' .keyNotFound → σ' = σ) := by
  constructor
  · intro σ f k v u fuel σ' h
    simp only [insertOp] at h
    repeat' split at h
    all_goals first
      | (cases h <;> rfl)
      | (exact (insertTail_err_class h).elim)
      | (exact (insertNew_err_class h).elim)
      | (cases h)
  · intro σ f k fuel σ' h
    simp only [deleteOp] at h
    repeat' split at h
    all_goals first
      | (cases h <;> rfl)
      | (cases h <;> (have hs := structural_of_pyPop (by assumption)
                      simp only [PyErr.structural] at hs))
      | (have hs := fixNode_err_class _ _ _ _ _ h
         simp only [PyErr.structural] at hs)
      | (cases h <;> (have hs := fixNode_err_class _ _ _ _ _ (by assumption)
                      simp only [PyErr.structural] at hs))
      | (cases h)

/-- Witness for `failed_insert_delete_atomic`: on the concrete order-4
tree holding only key 1, `insert(1, 99)` raises `DuplicateKey` and
`delete(0)` raises `KeyNotFound`, both returning the unchanged state. -/
theorem failed_insert_delete_atomic_witness :
    (insertOp sigmaOne (fun x => x) 1 99 false 100 = .err sigmaOne .dupKey ∧
       sigmaOne = sigmaOne) ∧
    (deleteOp sigmaOne (fun x => x) 0 100 = .err sigmaOne .keyNotFound ∧
       sigmaOne = sigmaOne) :=
  ⟨⟨by decide,
    failed_insert_delete_atomic.1 sigmaOne (fun x => x) 1 99 false 100 sigmaOne (by decide)⟩,
   ⟨by decide,
    failed_insert_delete_atomic.2 sigmaOne (fun x => x) 0 100 sigmaOne (by decide)⟩⟩

theorem pyGetI_eq_ok {α : Type} {a : List α} {j : Nat} {x : α}
    (h : a.get? j = some x) : pyGetI a (j : Int) = .ok x := by
  have hj : j < a.length := by
    rcases List.get?_eq_some.mp h with ⟨hj, _⟩
    exact hj
  unfold pyGetI pyIdx
  rw [if_pos (Int.ofNat_nonneg j), if_pos (by exact_mod_cast hj)]
  rw [List.get?_eq_getElem?] at h
  simp [h]

theorem pyGetI_neg_one {α : Type} {a : List α} {x : α}
    (h : a.get? (a.length - 1) = some x) (hne : 0 < a.length) :
    pyGetI a (-1) = .ok x := by
  unfold pyGetI pyIdx
  rw [if_neg (by omega), if_pos (by omega)]
  rw [List.get?_eq_getElem?] at h
  simp only [Int.toNat_one]
  simp [h]

theorem pyInsertAt_length {α : Type} (a : List α) (i : Int) (x : α) :
    (pyInsertAt a i x).length = a.length + 1 := by
  unfold pyInsertAt
  split
  · split
    · simp
      omega
    · simp
  · simp
    omega

theorem setNode_beyond {σ : BPlusTree} {c : Nat} (n : BNode)
    (h : σ.arena.length ≤ c) : σ.setNode c n = σ := by
  simp [BPlusTree.setNode, List.set_eq_of_length_le h]

theorem reparentAll_beyond : ∀ (l : List Nat) (σ : BPlusTree) (pid : Nat),
    σ.arena.length = 3 → (∀ c ∈ l, 3 ≤ c) → reparentAll σ l pid = σ := by
  intro l
  induction l with
  | nil =>
    intro σ pid _ _
    rfl
  | cons c rest ih =>
    intro σ pid hlen h
    have hc : σ.arena.length ≤ c := by
      rw [hlen]
      exact h c (by simp)
    have hstep : σ.setNode c { σ.node c with parent := some pid } = σ :=
      setNode_beyond _ hc
    simp only [reparentAll, List.foldl_cons, hstep]
    have := ih σ pid hlen (fun d hd => h d (by simp [hd]))
    simpa [reparentAll] using this

theorem pyInsertAt_mem_self {α : Type} (a : List α) (i : Int) (x : α) :
    x ∈ pyInsertAt a i x := by
  simp only [pyInsertAt]
  exact List.mem_append.2 (Or.inr (List.mem_cons_self _ _))

theorem head?_drop_of_get? {l : List Int} {n : Nat} {x : Int}
    (h : l.get? n = some x) : (l.drop n).head? = some x := by
  rw [← List.get?_zero, List.get?_drop]
  simpa using h

theorem not_mem_take_of_pairwise_lt {ks : List Int} (hs : List.Pairwise (· < ·) ks)
    {p : Nat} {sk : Int} (h : ks.get? p = some sk) : sk ∉ ks.take p := by
  intro hmem
  have hp : p < ks.length := by
    rcases List.get?_eq_some.mp h with ⟨hp, _⟩
    exact hp
  have hsk : ks[p] = sk := by
    rw [List.get?_eq_getElem?, List.getElem?_eq_getElem hp] at h
    exact Option.some.inj h
  rcases List.mem_iff_getElem.mp hmem with ⟨i, hi, hgi⟩
  have hip : i < p := by
    have := hi
    rw [List.length_take] at this
    omega
  have hilen : i < ks.length := by omega
  have hie : ks[i] = sk := by
    rw [← hgi, List.getElem_take]
  have hlt := (List.pairwise_iff_getElem.mp hs) i p hilen hp hip
  rw [hie, hsk] at hlt
  exact lt_irrefl _ hlt

theorem not_mem_drop_succ_of_pairwise_lt {ks : List Int}
    (hs : List.Pairwise (· < ·) ks) {p : Nat} {sk : Int}
    (h : ks.get? p = some sk) : sk ∉ ks.drop (p + 1) := by
  intro hmem
  have hp : p < ks.length := by
    rcases List.get?_eq_some.mp h with ⟨hp, _⟩
    exact hp
  have hsk : ks[p] = sk := by
    rw [List.get?_eq_getElem?, List.getElem?_eq_getElem hp] at h
    exact Option.some.inj h
  rcases List.mem_iff_getElem.mp hmem with ⟨i, hi, hgi⟩
  have hplus : p + 1 + i < ks.length := by
    rw [List.length_drop] at hi
    omega
  have hie : ks[p + 1 + i] = sk := by
    rw [← hgi, List.getElem_drop]
  have hlt := (List.pairwise_iff_getElem.mp hs) p (p + 1 + i) hp hplus (by omega)
  rw [hie, hsk] at hlt
  exact lt_irrefl _ hlt

/-- Full evaluation of `_split_node` on a full LEAF under a roomy parent. -/
theorem leafSplit_eval (o : Int) (pk ks vs : List Int) (sk : Int)
    (hfull : o ≤ (ks.length : Int)) (h1 : 1 ≤ o)
    (hsk : ks.get? (ks.length / 2) = some sk)
    (hpk : (pk.length : Int) + 1 < o) :
    splitNode (splitLeafSt o pk ks vs) 1 2 = .ok
      { arena := [
          { order := o, keys := pyInsertAt pk ((bisectRight pk sk : Nat) : Int) sk,
            children := pyInsertAt [1] (((bisectRight pk sk : Nat) : Int) + 1) 2 },
          { order := o, keys := ks.take (ks.length / 2), values := vs.take (ks.length / 2),
            parent := some 0, right := some 2, next := some 2 },
          { order := o, keys := ks.drop (ks.length / 2), values := vs.drop (ks.length / 2),
            parent := some 0, left := some 1 }],
        root := 0, leaf := 1, len := (ks.length : Int), order := o } := by
  have hnf : ¬ (o ≤ (pk.length : Int) + 1) := by omega
  have hcast : ((ks.length : Int) / 2) = ((ks.length / 2 : Nat) : Int) :=
    (Int.ofNat_ediv ks.length 2).symm
  have hget : pyGetI ks ((ks.length : Int) / 2) = .ok sk := by
    rw [hcast]
    exact pyGetI_eq_ok hsk
  simp [splitNode, splitLeafSt, splitParent, BPlusTree.node, BPlusTree.setNode,
    freshNode, BNode.full, BNode.root, BNode.leaf, BNode.empty, splitHalves,
    hget, hfull, hnf, pyInsertAt_length]

set_option maxHeartbeats 2000000 in
/-- Full evaluation of `_split_node` on a full INTERNAL node under a roomy
parent (child ids point outside the two-node arena, as arbitrary ids). -/
theorem innerSplit_eval (o : Int) (pk ks : List Int) (cs : List Nat) (sk : Int)
    (cp cq : Nat)
    (hfull : o ≤ (ks.length : Int)) (h1 : 1 ≤ o)
    (hsk : ks.get? (ks.length / 2) = some sk)
    (hpk : (pk.length : Int) + 1 < o)
    (hlen : cs.length = ks.length + 1)
    (hge : ∀ c ∈ cs, 3 ≤ c)
    (hcp : cs.get? (ks.length / 2) = some cp)
    (hcq : cs.get? (ks.length / 2 + 1) = some cq) :
    splitNode (splitInnerSt o pk ks cs) 1 2 = .ok
      { arena := [
          { order := o, keys := pyInsertAt pk ((bisectRight pk sk : Nat) : Int) sk,
            children := pyInsertAt [1] (((bisectRight pk sk : Nat) : Int) + 1) 2 },
          { order := o, keys := ks.take (ks.length / 2),
            children := cs.take (ks.length / 2 + 1), parent := some 0, right := some 2 },
          { order := o, keys := ks.drop (ks.length / 2 + 1),
            children := cs.drop (ks.length / 2 + 1), parent := some 0, left := some 1 }],
        root := 0, leaf := 1, len := 0, order := o } := by
  have hpos : ks.length / 2 < ks.length := by omega
  have hnf : ¬ (o ≤ (pk.length : Int) + 1) := by omega
  have hcast : ((ks.length : Int) / 2) = ((ks.length / 2 : Nat) : Int) :=
    (Int.ofNat_ediv ks.length 2).symm
  have hget : pyGetI ks ((ks.length : Int) / 2) = .ok sk := by
    rw [hcast]
    exact pyGetI_eq_ok hsk
  have hcne : cs ≠ [] := by
    intro hc
    rw [hc] at hlen
    simp at hlen
  have htl : (cs.take (ks.length / 2 + 1)).length = ks.length / 2 + 1 := by
    rw [List.length_take]
    omega
  have hlast : pyGetI (cs.take (ks.length / 2 + 1)) (-1) = .ok cp := by
    apply pyGetI_neg_one
    · rw [htl]
      simp only [Nat.add_sub_cancel]
      rw [List.get?_take (by omega)]
      exact hcp
    · omega
  have hfirst : pyGetI (cs.drop (ks.length / 2 + 1)) (0 : Int) = .ok cq := by
    have h0 := pyGetI_eq_ok (a := cs.drop (ks.length / 2 + 1)) (j := 0) (x := cq) ?_
    · simpa using h0
    · rw [List.get?_drop]
      simpa using hcq
  have h3p : 3 ≤ cp := hge cp (List.get?_mem hcp)
  have h3q : 3 ≤ cq := hge cq (List.get?_mem hcq)
  have hged : ∀ c ∈ cs.drop (ks.length / 2 + 1), 3 ≤ c :=
    fun c hc => hge c (List.mem_of_mem_drop hc)
  have hrep : ∀ (σx : BPlusTree), σx.arena.length = 3 →
      reparentAll σx (cs.drop (ks.length / 2 + 1)) 2 = σx :=
    fun σx hl => reparentAll_beyond _ σx 2 hl hged
  simp [splitNode, splitInnerSt, splitParent, BPlusTree.node, BPlusTree.setNode,
    freshNode, BNode.full, BNode.root, BNode.leaf, BNode.empty, splitHalves,
    hget, hfull, hnf, pyInsertAt_length, hcne, hlast, hfirst,
    List.set_eq_of_length_le, hrep, h3p, h3q, hged]


/-- C7: `_split_node` at `pos = ⌊|keys|/2⌋` treats leaves and internal
nodes asymmetrically.  Leaf: the node keeps `keys[:pos]`, the new right
sibling gets `keys[pos:]`, so the separator `split_key = keys[pos]` is
copied up into the parent AND remains the first key of the new node.
Internal: the node keeps `keys[:pos]`, the new sibling gets
`keys[pos+1:]`, children partition at `pos+1`, and the separator is
promoted — present in the parent and (for strictly increasing keys)
absent from both halves. -/
theorem split_leaf_copies_internal_promotes :
    (∀ (o : Int) (pk ks vs : List Int) (sk : Int),
       o ≤ (ks.length : Int) → 1 ≤ o →
       ks.get? (ks.length / 2) = some sk →
       (pk.length : Int) + 1 < o →
       ∃ σ', splitNode (splitLeafSt o pk ks vs) 1 2 = .ok σ' ∧
         (σ'.node 1).keys = ks.take (ks.length / 2) ∧
         (σ'.node 2).keys = ks.drop (ks.length / 2) ∧
         (σ'.node 2).keys.head? = some sk ∧
         sk ∈ (σ'.node 0).keys) ∧
    (∀ (o : Int) (pk ks : List Int) (cs : List Nat) (sk : Int) (cp cq : Nat),
       o ≤ (ks.length : Int) → 1 ≤ o →
       ks.get? (ks.length / 2) = some sk →
       (pk.length : Int) + 1 < o →
       cs.length = ks.length + 1 →
       (∀ c ∈ cs, 3 ≤ c) →
       cs.get? (ks.length / 2) = some cp →
       cs.get? (ks.length / 2 + 1) = some cq →
       List.Pairwise (· < ·) ks →
       ∃ σ', splitNode (splitInnerSt o pk ks cs) 1 2 = .ok σ' ∧
         (σ'.node 1).keys = ks.take (ks.length / 2) ∧
         (σ'.node 2).keys = ks.drop (ks.length / 2 + 1) ∧
         (σ'.node 1).children = cs.take (ks.length / 2 + 1) ∧
         (σ'.node 2).children = cs.drop (ks.length / 2 + 1) ∧
         sk ∈ (σ'.node 0).keys ∧
         sk ∉ (σ'.node 1).keys ∧ sk ∉ (σ'.node 2).keys) := by
  constructor
  · intro o pk ks vs sk hfull h1 hsk hpk
    refine ⟨_, leafSplit_eval o pk ks vs sk hfull h1 hsk hpk, rfl, rfl, ?_, ?_⟩
    · exact head?_drop_of_get? hsk
    · exact pyInsertAt_mem_self pk _ sk
  · intro o pk ks cs sk cp cq hfull h1 hsk hpk hlen hge hcp hcq hsort
    refine ⟨_, innerSplit_eval o pk ks cs sk cp cq hfull h1 hsk hpk hlen hge hcp hcq,
      rfl, rfl, rfl, rfl, ?_, ?_, ?_⟩
    · exact pyInsertAt_mem_self pk _ sk
    · exact not_mem_take_of_pairwise_lt hsort hsk
    · exact not_mem_drop_succ_of_pairwise_lt hsort hsk


/-- Witness for `split_leaf_copies_internal_promotes`: the leaf `[1,2,3]`
and the internal node `[10,20,30]` with children `[3,4,5,6]`, both of
order 3 under an empty-keyed parent. -/
theorem split_leaf_copies_internal_promotes_witness :
    (∃ σ', splitNode (splitLeafSt 3 [] [1, 2, 3] [4, 5, 6]) 1 2 = .ok σ' ∧
       (σ'.node 1).keys = [1, 2, 3].take 1 ∧
       (σ'.node 2).keys = [1, 2, 3].drop 1 ∧
       (σ'.node 2).keys.head? = some 2 ∧
       2 ∈ (σ'.node 0).keys) ∧
    (∃ σ', splitNode (splitInnerSt 3 [] [10, 20, 30] [3, 4, 5, 6]) 1 2 = .ok σ' ∧
       (σ'.node 1).keys = [10, 20, 30].take 1 ∧
       (σ'.node 2).keys = [10, 20, 30].drop 2 ∧
       (σ'.node 1).children = [3, 4, 5, 6].take 2 ∧
       (σ'.node 2).children = [3, 4, 5, 6].drop 2 ∧
       (20 : Int) ∈ (σ'.node 0).keys ∧
       (20 : Int) ∉ (σ'.node 1).keys ∧ (20 : Int) ∉ (σ'.node 2).keys) :=
  ⟨split_leaf_copies_internal_promotes.1 3 [] [1, 2, 3] [4, 5, 6] 2
     (by decide) (by decide) (by decide) (by decide),
   split_leaf_copies_internal_promotes.2 3 [] [10, 20, 30] [3, 4, 5, 6] 20 4 5
     (by decide) (by decide) (by decide) (by decide) (by decide) (by decide)
     (by decide) (by decide) (by decide)⟩

/-- C1: in a tree of order 4 holding only the key 1, the missing key 2
probes past the leaf's last key.  The claim (and the spec) says `search`
and `delete` must fail with `KeyNotFound`; the code instead evaluates
`leaf.keys[p]` unguarded and raises `IndexError`, leaving the tree
unchanged. -/
theorem search_delete_overshoot_raises_IndexError :
    (insertOp (mkTree 4) (fun x => x) 1 1 false 100).isOk = true ∧
    searchOp sigmaOne (fun x => x) 2 100 = .error .idxError ∧
    deleteOp sigmaOne (fun x => x) 2 100 = .err sigmaOne .idxError := by
  decide
/-- C2: `insert` with `update=true` on the existing key 1 overwrites the
value and leaves the single leaf's keys unchanged, but the source falls
through to `self.len += 1`, so the element count grows from 1 to 2 even
though no element was added — contradicting the claim that counts are
unmodified. -/
theorem update_existing_key_bumps_length :
    sigmaC2.len = 1 ∧ sigmaC2upd.isOk = true ∧ sigmaC2upd.state.len = 2 ∧
    itemsOp sigmaC2upd.state 100 = .ok [(1, 20)] ∧
    (sigmaC2upd.state.node 0).keys = [1] := by
  decide
/-- C3: `clear()` installs a fresh empty root leaf equal to the head leaf,
but the source never resets `self.len`, so after inserting one element and
clearing, `length()` still reports 1 instead of the claimed 0. -/
theorem clear_does_not_reset_length :
    sigmaC2.len = 1 ∧ (clearOp sigmaC2).len = 1 ∧
    ((clearOp sigmaC2).node (clearOp sigmaC2).root).keys = [] ∧
    ((clearOp sigmaC2).node (clearOp sigmaC2).root).leaf = true ∧
    (clearOp sigmaC2).root = (clearOp sigmaC2).leaf ∧
    itemsOp (clearOp sigmaC2) 100 = .ok [] := by
  decide
/-- C4: inserting 1..20 at order 3 succeeds, but the very first deletion
of the claimed scenario already crashes: `delete(1)` empties the leftmost
leaf `[1]`, whose right sibling `[2]` is not borrowable, and the merge
step evaluates `merge_left.keys[0]` on the empty node, raising
`IndexError` instead of completing. -/
theorem order3_scenario_first_delete_crashes :
    sigmaC4.isOk = true ∧ sigmaC4.state.len = 20 ∧
    (deleteOp sigmaC4.state (fun x => x) 1 100).isErr .idxError = true := by
  decide
/-- C5: at order 3 (`m = 1`) the crash-free public-operation script
`seqC5` completes, yet afterwards node 2 — a non-root node still attached
to the tree (child of node 9) — holds zero keys, violating the claimed
`m ≤ |keys|` bound.  Root cause: `_split_node` never updates the old
right sibling's `left` pointer, so `_fix_node` later merges across a
stale `left` link, dropping a live child and leaving the empty node in
place. -/
theorem completed_delete_leaves_underfull_node :
    (runOps (mkTree 3) seqC5 200).isOk = true ∧
    2 ∈ reachableIds sigmaC5 ∧ 2 ≠ sigmaC5.root ∧
    (sigmaC5.node 2).parent = some 9 ∧
    (sigmaC5.node 2).keys = [] ∧
    minKeys 3 = 1 := by
  decide
/-- C8: on the reachable state `sigmaC5` (built by the crash-free script
`seqC5`), key 8 is absent (`search` reports `KeyNotFound` and the leaf
chain holds no pair with key 8); `insert(8, 8)` completes, but the
following `delete(8)` raises `IndexError` inside the merge of
`_fix_node`, and the tree is left with `len = 10` instead of the original
9 — the state is not returned to an equivalent one. -/
theorem insert_then_delete_not_roundtrip :
    (runOps (mkTree 3) seqC5 200).isOk = true ∧
    searchOp sigmaC5 (fun x => x) 8 200 = .error .keyNotFound ∧
    (chainDump sigmaC5).all (fun p => p.1 ≠ 8) = true ∧
    sigmaC5.len = 9 ∧
    rtC8.isErr .idxError = true ∧
    rtC8.state.len = 10 := by
  decide
/-- C9 counterexample: the nonpositive order 0 with a perfectly callable
ordering function is accepted by the constructor and produces a tree,
refuting the claim that every nonpositive order fails with
`InvalidArgument`. -/
theorem init_accepts_nonpositive_order :
    initTree (.int 0) (.callable (fun x => x)) = .ok (mkTree 0) := by
  rfl
/-- C9 (amended): the constructor fails exactly when the order is not an
integer or the ordering function is not callable; every integer order —
positive or not — is accepted and yields the fresh one-node tree. -/
theorem init_rejects_exactly_nonint_or_noncallable :
    (∀ oa fa, initFails oa fa = (!oa.isInt || !fa.isCallable)) ∧
    (∀ (n : Int) (f : Int → Int), initTree (.int n) (.callable f) = .ok (mkTree n)) := by
  constructor
  · intro oa fa
    cases oa <;> cases fa <;> rfl
  · intro n f
    rfl
/-- C10: inserting `(k, v)` through a tree constructed with ordering
function `f` stores only the mapped key: the resulting state's single
node holds exactly the key list `[f k]` (the caller's `k` is not retained
anywhere), and `items()` yields the pair `(f k, v)`. -/
theorem insert_stores_only_mapped_key (f : Int → Int) (k v : Int) :
    insertOp (mkTree 4) f k v false 100 =
      .ok { arena := [{ freshNode 4 with keys := [f k], values := [v] }],
            root := 0, leaf := 0, len := 1, order := 4 } ∧
    itemsOp (insertOp (mkTree 4) f k v false 100).state 100 = .ok [(f k, v)] ∧
    ∀ n ∈ (insertOp (mkTree 4) f k v false 100).state.arena, n.keys = [f k] := by
  have h : insertOp (mkTree 4) f k v false 100 =
      .ok { arena := [{ freshNode 4 with keys := [f k], values := [v] }],
            root := 0, leaf := 0, len := 1, order := 4 } := rfl
  refine ⟨h, ?_, ?_⟩
  · rw [h]
    rfl
  · rw [h]
    intro n hn
    simp only [MRes.state, List.mem_singleton] at hn
    rw [hn]
